import Mathlib

/-!
Shallow embedding of the route-planning core of `src/lib/build_csv.py`
(class `BuildCSV`) of the harpia repository, together with theorems that
settle the frozen claims about it.

Conventions of the embedding:
* Python floats are modelled as rationals (`ℚ`); coordinates are pairs
  `ℚ × ℚ`; Euclidean distances (computed by shapely / numpy via `sqrt`)
  live in `ℝ`.
* A pandas `DataFrame` of rows is modelled as a `List` of structures, one
  structure field per column that the modelled code touches.
* External library calls (shapely buffering, `rasterstats.zonal_stats`,
  the OR-Tools routing solver) are taken as explicit function parameters
  of the embedded operations; the code of `BuildCSV` itself is translated
  line by line.
* A Python `raise ValueError(...)` is modelled as `Except.error e` where
  `e` is a `BuildError` constructor carrying the data interpolated into
  the message; a normal `return` is `Except.ok`.
-/

namespace Harpia

/-- Kinds of output rows: the `type` column of the merged frame takes the
values `'wpt'` (waypoint) and `'cpt'` (checkpoint). -/
inductive RecType where
  | wpt
  | cpt
deriving DecidableEq, Repr

/-- A row of the interleaved waypoint/checkpoint frame, generic in the type
of the `elev` column (`ℚ` when every elevation is a number, `Option ℚ`
where `zonal_stats` may have produced `None`). Fields are the columns
selected in `get_tsp_solution_df` / `extract_path_checkpoints`:
`point_id`, `type`, `geometry`, `elev`, `order`. -/
structure RecordG (ε : Type) where
  point_id : Int
  type : RecType
  geometry : ℚ × ℚ
  elev : ε
  order : Nat
deriving DecidableEq, Repr

/-- Rows whose `elev` column holds a plain number, as required by the
arithmetic in `fix_cpt_wpt_elevation_duplicates` (a `None` elevation would
raise a `TypeError` there). -/
abbrev Record := RecordG ℚ

/-- Rows whose `elev` column may hold the missing value `None` returned by
`zonal_stats` for a zone fully outside the raster. -/
abbrev RawRecord := RecordG (Option ℚ)

instance : Inhabited RecType := ⟨RecType.wpt⟩

instance {ε : Type} [Inhabited ε] : Inhabited (RecordG ε) :=
  ⟨⟨0, default, (0, 0), default, 0⟩⟩

/-- One iteration of the scan in `fix_cpt_wpt_elevation_duplicates`
(build_csv.py lines 343-351): read rows `i` and `i+1`; when row `i` is a
checkpoint, row `i+1` a waypoint, and their elevations differ by less than
`1e-3`, write `curr['elev'] + 1` into the `elev` cell of row `i`. -/
def fixStep (df : List Record) (i : Nat) : List Record :=
  match df[i]?, df[i + 1]? with
  | some curr, some nxt =>
    if curr.type = RecType.cpt ∧ nxt.type = RecType.wpt ∧
        |curr.elev - nxt.elev| < 1 / 1000 then
      df.set i { curr with elev := curr.elev + 1 }
    else
      df
  | _, _ => df

/-- Prefix of the scan: the first `m` iterations (`for i in range(m)`). -/
def fixFold (df : List Record) (m : Nat) : List Record :=
  (List.range m).foldl fixStep df

/-- Embedding of `BuildCSV.fix_cpt_wpt_elevation_duplicates` (build_csv.py
lines 336-353): a single left-to-right pass over the merged frame,
`for i in range(len(merged_df) - 1)`, applying `fixStep` at each index. -/
def fix_cpt_wpt_elevation_duplicates (df : List Record) : List Record :=
  fixFold df (df.length - 1)

lemma fixStep_length (df : List Record) (i : Nat) :
    (fixStep df i).length = df.length := by
  unfold fixStep
  split
  · split
    · exact List.length_set df i _
    · rfl
  · rfl

lemma fixFold_succ (df : List Record) (m : Nat) :
    fixFold df (m + 1) = fixStep (fixFold df m) m := by
  unfold fixFold
  rw [List.range_succ, List.foldl_append]
  rfl

lemma fixFold_length (df : List Record) (m : Nat) :
    (fixFold df m).length = df.length := by
  induction m with
  | zero => rfl
  | succ m ih => rw [fixFold_succ, fixStep_length, ih]

lemma fixStep_getElem?_ne (df : List Record) (i j : Nat) (h : i ≠ j) :
    (fixStep df i)[j]? = df[j]? := by
  unfold fixStep
  split
  · split
    · exact List.getElem?_set_ne h
    · rfl
  · rfl

lemma fixFold_getElem?_untouched (df : List Record) (m i : Nat) (h : m ≤ i) :
    (fixFold df m)[i]? = df[i]? := by
  induction m with
  | zero => rfl
  | succ m ih =>
    rw [fixFold_succ, fixStep_getElem?_ne _ _ _ (by omega)]
    exact ih (by omega)

lemma fixStep_cases (g : List Record) (m : Nat) :
    (fixStep g m = g ∧
      ∀ curr nxt, g[m]? = some curr → g[m + 1]? = some nxt →
        ¬(curr.type = RecType.cpt ∧ nxt.type = RecType.wpt ∧
          |curr.elev - nxt.elev| < 1 / 1000)) ∨
    (∃ curr nxt, g[m]? = some curr ∧ g[m + 1]? = some nxt ∧
      curr.type = RecType.cpt ∧ nxt.type = RecType.wpt ∧
      |curr.elev - nxt.elev| < 1 / 1000 ∧
      fixStep g m = g.set m { curr with elev := curr.elev + 1 }) := by
  unfold fixStep
  split
  next curr nxt h1 h2 =>
    by_cases hc : curr.type = RecType.cpt ∧ nxt.type = RecType.wpt ∧
        |curr.elev - nxt.elev| < 1 / 1000
    · exact Or.inr ⟨curr, nxt, h1, h2, hc.1, hc.2.1, hc.2.2, if_pos hc⟩
    · refine Or.inl ⟨if_neg hc, ?_⟩
      intro c n hc1 hc2
      rw [h1] at hc1
      rw [h2] at hc2
      cases Option.some.inj hc1
      cases Option.some.inj hc2
      exact hc
  next h =>
    refine Or.inl ⟨rfl, ?_⟩
    intro c n hc1 hc2
    exact (h c n hc1 hc2).elim

lemma RecordG.eq_of_fields {ε : Type} {a b : RecordG ε}
    (h1 : b.point_id = a.point_id) (h2 : b.type = a.type)
    (h3 : b.geometry = a.geometry) (h4 : b.elev = a.elev)
    (h5 : b.order = a.order) : b = a := by
  cases a
  cases b
  simp_all

lemma lt_length_of_getElem? {α : Type} {l : List α} {i : Nat} {a : α}
    (h : l[i]? = some a) : i < l.length := by
  rcases List.getElem?_eq_some_iff.mp h with ⟨hlt, _⟩
  exact hlt

lemma fixStep_getElem?_wpt (g : List Record) (m j : Nat) (b : Record)
    (hb : (fixStep g m)[j]? = some b) (hw : b.type = RecType.wpt) :
    g[j]? = some b := by
  by_cases hjm : m = j
  · subst hjm
    rcases fixStep_cases g m with ⟨heq, _⟩ | ⟨curr, nxt, h1, h2, hcpt, _, _, heq⟩
    · rw [heq] at hb
      exact hb
    · rw [heq] at hb
      have hm : m < g.length := lt_length_of_getElem? h1
      rw [List.getElem?_set_self hm] at hb
      cases Option.some.inj hb
      rw [hcpt] at hw
      exact absurd hw (by simp at hw)
  · rw [fixStep_getElem?_ne _ _ _ hjm] at hb
    exact hb

lemma fixFold_rel (df : List Record) (m : Nat) :
    ∀ (i : Nat) (a : Record), df[i]? = some a →
      ∃ b : Record, (fixFold df m)[i]? = some b ∧
      b.point_id = a.point_id ∧ b.type = a.type ∧ b.geometry = a.geometry ∧
      b.order = a.order ∧
      (b.elev = a.elev ∨ (a.type = RecType.cpt ∧ b.elev = a.elev + 1)) := by
  induction m with
  | zero => exact fun i a ha => ⟨a, ha, rfl, rfl, rfl, rfl, Or.inl rfl⟩
  | succ m ih =>
    intro i a ha
    rw [fixFold_succ]
    by_cases him : i = m
    · subst him
      have huntouched : (fixFold df i)[i]? = some a := by
        rw [fixFold_getElem?_untouched df i i le_rfl]
        exact ha
      rcases fixStep_cases (fixFold df i) i with ⟨heq, _⟩ |
          ⟨curr, nxt, h1, h2, hcpt, hwpt, hlt, heq⟩
      · exact ⟨a, by rw [heq]; exact huntouched, rfl, rfl, rfl, rfl, Or.inl rfl⟩
      · have hca : curr = a := by
          rw [h1] at huntouched
          exact Option.some.inj huntouched
        subst hca
        have hm : i < (fixFold df i).length := lt_length_of_getElem? h1
        exact ⟨{ curr with elev := curr.elev + 1 },
          by rw [heq]; exact List.getElem?_set_self hm,
          rfl, rfl, rfl, rfl, Or.inr ⟨hcpt, rfl⟩⟩
    · rw [fixStep_getElem?_ne _ _ _ (fun h => him h.symm)]
      exact ih i a ha

lemma fixStep_pair (g : List Record) (m : Nat) (a b : Record)
    (ha : (fixStep g m)[m]? = some a) (hb : (fixStep g m)[m + 1]? = some b)
    (hka : a.type = RecType.cpt) (hkb : b.type = RecType.wpt) :
    1 / 1000 ≤ |a.elev - b.elev| := by
  rcases fixStep_cases g m with ⟨heq, hno⟩ |
      ⟨curr, nxt, h1, h2, hcpt, hwpt, hlt, heq⟩
  · rw [heq] at ha hb
    have hnc : ¬(|a.elev - b.elev| < 1 / 1000) :=
      fun hlt => hno a b ha hb ⟨hka, hkb, hlt⟩
    exact not_lt.mp hnc
  · rw [heq] at ha hb
    have hm : m < g.length := lt_length_of_getElem? h1
    rw [List.getElem?_set_self hm] at ha
    have haa : a = { curr with elev := curr.elev + 1 } := (Option.some.inj ha).symm
    rw [List.getElem?_set_ne (by omega)] at hb
    rw [h2] at hb
    have hbb : b = nxt := (Option.some.inj hb).symm
    subst haa
    subst hbb
    show (1 : ℚ) / 1000 ≤ |curr.elev + 1 - b.elev|
    rcases abs_lt.mp hlt with ⟨hlo, hhi⟩
    have hge : (1 : ℚ) / 1000 ≤ curr.elev + 1 - b.elev := by linarith
    exact le_trans hge (le_abs_self _)

lemma fixFold_pair (df : List Record) :
    ∀ (m i : Nat) (a b : Record), i < m →
      (fixFold df m)[i]? = some a → (fixFold df m)[i + 1]? = some b →
      a.type = RecType.cpt → b.type = RecType.wpt →
      1 / 1000 ≤ |a.elev - b.elev| := by
  intro m
  induction m with
  | zero => exact fun i a b h => absurd h (Nat.not_lt_zero i)
  | succ m ih =>
    intro i a b him ha hb hka hkb
    rw [fixFold_succ] at ha hb
    by_cases hi : i = m
    · subst hi
      exact fixStep_pair (fixFold df i) i a b ha hb hka hkb
    · have ha' : (fixFold df m)[i]? = some a := by
        rw [fixStep_getElem?_ne _ _ _ (fun h => hi h.symm)] at ha
        exact ha
      have hb' : (fixFold df m)[i + 1]? = some b :=
        fixStep_getElem?_wpt (fixFold df m) m (i + 1) b hb hkb
      exact ih i a b (by omega) ha' hb' hka hkb

/-- C1: after `fix_cpt_wpt_elevation_duplicates` runs its single
left-to-right pass, every adjacent pair of rows in which the first is a
checkpoint (`cpt`) and the second a waypoint (`wpt`) has elevations whose
absolute difference is at least `1e-3`. -/
theorem fix_cpt_wpt_adjacent_separation (df : List Record) (i : Nat)
    (a b : Record)
    (ha : (fix_cpt_wpt_elevation_duplicates df)[i]? = some a)
    (hb : (fix_cpt_wpt_elevation_duplicates df)[i + 1]? = some b)
    (hka : a.type = RecType.cpt) (hkb : b.type = RecType.wpt) :
    1 / 1000 ≤ |a.elev - b.elev| := by
  have hlen : (fix_cpt_wpt_elevation_duplicates df).length = df.length :=
    fixFold_length df (df.length - 1)
  have h := lt_length_of_getElem? hb
  rw [hlen] at h
  exact fixFold_pair df (df.length - 1) i a b (by omega) ha hb hka hkb

/-- Witness for C1 at a concrete input: the frame
`[cpt at elevation 5, wpt at elevation 5]` gets its checkpoint bumped to
elevation 6, and the resulting adjacent difference is `1 ≥ 1e-3`. -/
theorem fix_cpt_wpt_adjacent_separation_witness :
    (1 : ℚ) / 1000 ≤ |(5 + 1 : ℚ) - 5| :=
  fix_cpt_wpt_adjacent_separation
    [⟨0, RecType.cpt, (0, 0), 5, 0⟩, ⟨1, RecType.wpt, (0, 0), 5, 1⟩] 0
    ⟨0, RecType.cpt, (0, 0), 5 + 1, 0⟩ ⟨1, RecType.wpt, (0, 0), 5, 1⟩
    (by simp [fix_cpt_wpt_elevation_duplicates, fixFold, fixStep,
      List.range_succ])
    (by simp [fix_cpt_wpt_elevation_duplicates, fixFold, fixStep,
      List.range_succ])
    rfl rfl

/-- C10: `fix_cpt_wpt_elevation_duplicates` preserves the number and order
of rows, changes no field except the `elev` of checkpoint rows, leaves
every waypoint row entirely unchanged, and each checkpoint elevation
either stays the same or increases by exactly 1. -/
theorem fix_cpt_wpt_frame_effect (df : List Record) :
    (fix_cpt_wpt_elevation_duplicates df).length = df.length ∧
    ∀ (i : Nat) (a b : Record), df[i]? = some a →
      (fix_cpt_wpt_elevation_duplicates df)[i]? = some b →
      b.point_id = a.point_id ∧ b.type = a.type ∧ b.geometry = a.geometry ∧
      b.order = a.order ∧
      (b.elev = a.elev ∨ (a.type = RecType.cpt ∧ b.elev = a.elev + 1)) ∧
      (a.type = RecType.wpt → b = a) := by
  refine ⟨fixFold_length df _, ?_⟩
  intro i a b ha hb
  obtain ⟨b', hb', h1, h2, h3, h4, h5⟩ := fixFold_rel df (df.length - 1) i a ha
  have hbb : b' = b := by
    have hsame : (fix_cpt_wpt_elevation_duplicates df)[i]? = some b' := hb'
    rw [hb] at hsame
    exact (Option.some.inj hsame).symm
  subst hbb
  refine ⟨h1, h2, h3, h4, h5, ?_⟩
  intro hwpt
  rcases h5 with he | ⟨hcpt, _⟩
  · exact RecordG.eq_of_fields h1 h2 h3 he h4
  · rw [hwpt] at hcpt
    exact absurd hcpt (by decide)

/-- Witness for C10 at a concrete input: on
`[cpt at elevation 5, wpt at elevation 5]` the fixed frame's first row
keeps all fields except `elev`, which goes from 5 to 6 = 5 + 1. -/
theorem fix_cpt_wpt_frame_effect_witness :
    (0 : Int) = 0 ∧ RecType.cpt = RecType.cpt ∧
    ((0 : ℚ), (0 : ℚ)) = ((0 : ℚ), (0 : ℚ)) ∧ (0 : Nat) = 0 ∧
    ((5 + 1 : ℚ) = 5 ∨ (RecType.cpt = RecType.cpt ∧ (5 + 1 : ℚ) = 5 + 1)) ∧
    (RecType.cpt = RecType.wpt →
      (⟨0, RecType.cpt, (0, 0), 5 + 1, 0⟩ : Record) =
        ⟨0, RecType.cpt, (0, 0), 5, 0⟩) :=
  (fix_cpt_wpt_frame_effect
    [⟨0, RecType.cpt, (0, 0), 5, 0⟩, ⟨1, RecType.wpt, (0, 0), 5, 1⟩]).2 0
    ⟨0, RecType.cpt, (0, 0), 5, 0⟩ ⟨0, RecType.cpt, (0, 0), 5 + 1, 0⟩
    rfl
    (by simp [fix_cpt_wpt_elevation_duplicates, fixFold, fixStep,
      List.range_succ])

/-- Geometry kinds distinguished by the `geom_type` check in
`read_features` (build_csv.py lines 84-93). -/
inductive GeomType where
  | point
  | polygon
  | multiPolygon
  | other
deriving DecidableEq, Repr

/-- An input feature after loading: its `point_id` (assigned from an
existing attribute or the native row id, build_csv.py lines 96-97) and its
point position (for areal geometries, the representative point computed by
shapely, build_csv.py line 89). -/
structure Feature where
  point_id : Int
  gtype : GeomType
  geometry : ℚ × ℚ
deriving DecidableEq, Repr

/-- Typed rendering of the `ValueError`s raised by `BuildCSV`, one
constructor per raise site, carrying the data interpolated into the
message. The spec names them `InputError` (`unsupportedGeometry`,
`noFeaturesFound`), `InsufficientFeaturesError`, `CoverageError` and
`NoRouteFoundError`; `noRouteFound` has no raise site in the code and
exists only so that the corresponding claim is expressible. -/
inductive BuildError where
  | unsupportedGeometry
  | noFeaturesFound
  | insufficientFeatures (point_id : Int)
  | coverage (idsListed : List Int) (numOutside total : Nat) (truncated : Bool)
  | noRouteFound
deriving DecidableEq, Repr

/-- Decide whether all geometries are areal (`Polygon`/`MultiPolygon`),
mirroring `all(gt in ['Polygon', 'MultiPolygon'] for gt in geom_type)`
(build_csv.py line 85); like the Python `all`, true on an empty frame. -/
def allAreal (features : List Feature) : Bool :=
  features.all fun f =>
    f.gtype == GeomType.polygon || f.gtype == GeomType.multiPolygon

/-- Decide whether all geometries are points, mirroring
`all(gt == 'Point' for gt in geom_type)` (build_csv.py line 90). -/
def allPoint (features : List Feature) : Bool :=
  features.all fun f => f.gtype == GeomType.point

/-- AOI filtering step of `read_features` (build_csv.py lines 100-111):
keep the features whose geometry intersects the (unioned, reprojected) AOI
geometry. The AOI, its optional 1-based polygon selection and the shapely
`intersects` test are modelled together as an optional predicate on the
feature position; `none` models `aoi_path is None` (no filtering). -/
def filterAOI (aoiPred : Option ((ℚ × ℚ) → Bool))
    (features : List Feature) : List Feature :=
  match aoiPred with
  | none => features
  | some p => features.filter fun f => p f.geometry

/-- Feature-count validation of `read_features` (build_csv.py lines
113-125): raise on zero surviving features, raise (mentioning the sole
feature's `point_id`) on exactly one, return the frame otherwise. -/
def validateCount (features : List Feature) :
    Except BuildError (List Feature) :=
  match features with
  | [] => Except.error BuildError.noFeaturesFound
  | [f] => Except.error (BuildError.insufficientFeatures f.point_id)
  | _ => Except.ok features

/-- Embedding of `BuildCSV.read_features` (build_csv.py lines 80-127):
geometry-kind gate (areal frames already carry their representative
points), optional AOI filtering, then feature-count validation. -/
def read_features (aoiPred : Option ((ℚ × ℚ) → Bool))
    (features : List Feature) : Except BuildError (List Feature) :=
  if allAreal features then
    validateCount (filterAOI aoiPred features)
  else if allPoint features then
    validateCount (filterAOI aoiPred features)
  else
    Except.error BuildError.unsupportedGeometry

/-- Bounding rectangle of the DSM raster (`dsm.bounds`, build_csv.py line
150). -/
structure RasterBounds where
  left : ℚ
  bottom : ℚ
  right : ℚ
  top : ℚ
deriving DecidableEq, Repr

/-- Shapely semantics of `point.within(box(left, bottom, right, top))`
(build_csv.py lines 151-154) for a point geometry: the point must lie in
the interior of the rectangle, so every comparison is strict and a point
exactly on the boundary is not within. -/
def pointWithinBox (p : ℚ × ℚ) (b : RasterBounds) : Bool :=
  decide (b.left < p.1) && decide (p.1 < b.right) &&
    decide (b.bottom < p.2) && decide (p.2 < b.top)

/-- The sub-frame `features[~features.geometry.within(dsm_box)]`
(build_csv.py line 154). -/
def nonOverlappingFeatures (features : List Feature) (b : RasterBounds) :
    List Feature :=
  features.filter fun f => ! pointWithinBox f.geometry b

/-- Embedding of `BuildCSV.check_features_overlap_dsm` (build_csv.py lines
145-167): succeed when every feature is within the DSM bounding box,
otherwise raise an error carrying the first 10 offending `point_id`s
(`ids_outside[:10]`), the counts, and whether the `"(and others)..."`
truncation notice was appended (`num_outside > 10`). -/
def check_features_overlap_dsm (features : List Feature)
    (b : RasterBounds) : Except BuildError Unit :=
  if (nonOverlappingFeatures features b).isEmpty then
    Except.ok ()
  else
    Except.error (BuildError.coverage
      (((nonOverlappingFeatures features b).map Feature.point_id).take 10)
      (nonOverlappingFeatures features b).length
      features.length
      (decide (10 < (nonOverlappingFeatures features b).length)))

/-- Embedding of `BuildCSV.extract_features_elevations` (build_csv.py
lines 170-182): for each feature, buffer it by `buffer_feature` and take
the zonal maximum of the DSM over the buffer, storing the result in the
`elev` column. The buffering and `zonal_stats` call are modelled by the
parameter `featureMaxElev`, which returns `none` exactly when
`zonal_stats` reports a missing statistic (buffer entirely outside the
raster). The missing value is stored as-is; no error is raised. -/
def extract_features_elevations (featureMaxElev : (ℚ × ℚ) → Option ℚ)
    (features : List Feature) : List (Feature × Option ℚ) :=
  features.map fun f => (f, featureMaxElev f.geometry)

/-- Steps 1-5 of `BuildCSV.run` (build_csv.py lines 30-39) as far as the
claims need them: read the features, check coverage against the DSM
bounds, then sample feature elevations. (Step 3, CRS alignment, is an
external reprojection and does not alter which rows exist.) -/
def runThroughElevations (featureMaxElev : (ℚ × ℚ) → Option ℚ)
    (aoiPred : Option ((ℚ × ℚ) → Bool)) (features : List Feature)
    (b : RasterBounds) : Except BuildError (List (Feature × Option ℚ)) :=
  match read_features aoiPred features with
  | Except.error e => Except.error e
  | Except.ok feats =>
    match check_features_overlap_dsm feats b with
    | Except.error e => Except.error e
    | Except.ok _ =>
      Except.ok (extract_features_elevations featureMaxElev feats)

/-- Embedding of `BuildCSV.extract_path_checkpoints` (build_csv.py lines
285-315): for each consecutive pair of ordered waypoints, build the
corridor buffer around the segment, take the zonal maximum of the DSM over
it and the centroid of the buffer polygon, and emit a checkpoint row
`{point_id: 0, type: 'cpt', geometry: centroid, elev: max, order: 0}`.
The buffer construction composed with `zonal_stats` (resp. with
`.centroid`) is modelled by the parameter `pathMaxElev` (resp.
`pathCentroid`) on the two segment endpoints. -/
def extract_path_checkpoints
    (pathMaxElev : (ℚ × ℚ) → (ℚ × ℚ) → Option ℚ)
    (pathCentroid : (ℚ × ℚ) → (ℚ × ℚ) → ℚ × ℚ)
    (ordered_features : List RawRecord) : List RawRecord :=
  let coords := ordered_features.map fun r => r.geometry
  (List.range (coords.length - 1)).map fun i =>
    { point_id := 0
      type := RecType.cpt
      geometry := pathCentroid (coords.getD i (0, 0)) (coords.getD (i + 1) (0, 0))
      elev := pathMaxElev (coords.getD i (0, 0)) (coords.getD (i + 1) (0, 0))
      order := 0 }

/-- The loop of `merge_waypoints_and_checkpoints` after `k` iterations:
`for i in range(k): merged += [waypoints.iloc[i], checkpoints.iloc[i]]`
(build_csv.py lines 326-328). -/
def mergeLoop {α : Type} [Inhabited α] (waypoints checkpoints : List α) :
    Nat → List α
  | 0 => []
  | k + 1 =>
    mergeLoop waypoints checkpoints k ++
      [waypoints.getD k default, checkpoints.getD k default]

/-- Embedding of `BuildCSV.merge_waypoints_and_checkpoints` (build_csv.py
lines 318-333): run the pairing loop over all checkpoint indices, then
append the last waypoint (`waypoints.iloc[-1]`). Generic in the row type,
as the Python code is agnostic of the frame's columns. -/
def merge_waypoints_and_checkpoints {α : Type} [Inhabited α]
    (waypoints checkpoints : List α) : List α :=
  mergeLoop waypoints checkpoints checkpoints.length ++
    [waypoints.getLastD default]

lemma mergeLoop_length {α : Type} [Inhabited α]
    (w c : List α) (k : Nat) : (mergeLoop w c k).length = 2 * k := by
  induction k with
  | zero => rfl
  | succ k ih =>
    show (mergeLoop w c k ++ [w.getD k default, c.getD k default]).length = _
    rw [List.length_append, ih]
    simp
    omega

lemma mergeLoop_getElem? {α : Type} [Inhabited α] (w c : List α) :
    ∀ (k i : Nat), i < 2 * k →
      (mergeLoop w c k)[i]? =
        if i % 2 = 0 then some (w.getD (i / 2) default)
        else some (c.getD (i / 2) default) := by
  intro k
  induction k with
  | zero => intro i h; omega
  | succ k ih =>
    intro i h
    show (mergeLoop w c k ++ [w.getD k default, c.getD k default])[i]? = _
    by_cases hik : i < 2 * k
    · rw [List.getElem?_append_left (by rw [mergeLoop_length]; exact hik)]
      exact ih i hik
    · have hlen : (mergeLoop w c k).length = 2 * k := mergeLoop_length w c k
      rcases (by omega : i = 2 * k ∨ i = 2 * k + 1) with hi | hi
      · subst hi
        rw [List.getElem?_append_right (by omega)]
        rw [hlen]
        have h0 : 2 * k - 2 * k = 0 := by omega
        rw [h0]
        have he : 2 * k % 2 = 0 := by omega
        have hd : 2 * k / 2 = k := by omega
        rw [he, hd]
        rfl
      · subst hi
        rw [List.getElem?_append_right (by omega)]
        rw [hlen]
        have h1 : 2 * k + 1 - 2 * k = 1 := by omega
        rw [h1]
        have ho : ¬((2 * k + 1) % 2 = 0) := by omega
        have hd : (2 * k + 1) / 2 = k := by omega
        rw [if_neg ho, hd]
        rfl

lemma getLastD_mem {α : Type} [Inhabited α] (l : List α) (h : l ≠ []) :
    l.getLastD default ∈ l := by
  rw [List.getLastD_eq_getLast?]
  rcases l with _ | ⟨a, t⟩
  · exact absurd rfl h
  · rw [List.getLast?_eq_getLast (a :: t) (by simp)]
    exact List.getLast_mem (by simp)

lemma extract_path_checkpoints_length (pME : (ℚ × ℚ) → (ℚ × ℚ) → Option ℚ)
    (pC : (ℚ × ℚ) → (ℚ × ℚ) → ℚ × ℚ) (ordered : List RawRecord) :
    (extract_path_checkpoints pME pC ordered).length = ordered.length - 1 := by
  unfold extract_path_checkpoints
  simp

lemma extract_path_checkpoints_type (pME : (ℚ × ℚ) → (ℚ × ℚ) → Option ℚ)
    (pC : (ℚ × ℚ) → (ℚ × ℚ) → ℚ × ℚ) (ordered : List RawRecord)
    (r : RawRecord) (hr : r ∈ extract_path_checkpoints pME pC ordered) :
    r.type = RecType.cpt := by
  unfold extract_path_checkpoints at hr
  simp only [List.mem_map, List.mem_range] at hr
  obtain ⟨i, _, hr⟩ := hr
  rw [← hr]

/-- C6: for `n ≥ 2` ordered waypoints, `extract_path_checkpoints` produces
exactly `n - 1` checkpoints, and `merge_waypoints_and_checkpoints`
interleaves them as `wpt, cpt, wpt, ..., wpt`: the merged frame has
`2n - 1` rows, even positions are waypoints, odd positions checkpoints,
and the first and last rows are waypoints. -/
theorem extract_merge_interleave
    (pME : (ℚ × ℚ) → (ℚ × ℚ) → Option ℚ)
    (pC : (ℚ × ℚ) → (ℚ × ℚ) → ℚ × ℚ)
    (waypoints : List RawRecord)
    (h2 : 2 ≤ waypoints.length)
    (hw : ∀ r ∈ waypoints, r.type = RecType.wpt) :
    (extract_path_checkpoints pME pC waypoints).length =
      waypoints.length - 1 ∧
    (merge_waypoints_and_checkpoints waypoints
        (extract_path_checkpoints pME pC waypoints)).length =
      2 * waypoints.length - 1 ∧
    (∀ (i : Nat) (r : RawRecord),
      (merge_waypoints_and_checkpoints waypoints
          (extract_path_checkpoints pME pC waypoints))[i]? = some r →
      r.type = if i % 2 = 0 then RecType.wpt else RecType.cpt) ∧
    (merge_waypoints_and_checkpoints waypoints
        (extract_path_checkpoints pME pC waypoints)).head?.map
      (fun r => r.type) = some RecType.wpt ∧
    (merge_waypoints_and_checkpoints waypoints
        (extract_path_checkpoints pME pC waypoints)).getLast?.map
      (fun r => r.type) = some RecType.wpt := by
  have hclen : (extract_path_checkpoints pME pC waypoints).length =
      waypoints.length - 1 := extract_path_checkpoints_length pME pC waypoints
  have hmlen : (merge_waypoints_and_checkpoints waypoints
      (extract_path_checkpoints pME pC waypoints)).length =
      2 * waypoints.length - 1 := by
    unfold merge_waypoints_and_checkpoints
    rw [List.length_append, mergeLoop_length, hclen]
    simp
    omega
  have hwne : waypoints ≠ [] := by
    intro hnil
    rw [hnil] at h2
    simp at h2
  have hlast : (merge_waypoints_and_checkpoints waypoints
      (extract_path_checkpoints pME pC waypoints)).getLast? =
      some (waypoints.getLastD default) := by
    unfold merge_waypoints_and_checkpoints
    exact List.getLast?_concat _
  have halt : ∀ (i : Nat) (r : RawRecord),
      (merge_waypoints_and_checkpoints waypoints
          (extract_path_checkpoints pME pC waypoints))[i]? = some r →
      r.type = if i % 2 = 0 then RecType.wpt else RecType.cpt := by
    intro i r hr
    have hibound : i < 2 * waypoints.length - 1 := by
      have := lt_length_of_getElem? hr
      rw [hmlen] at this
      exact this
    have hloopLen : (mergeLoop waypoints
        (extract_path_checkpoints pME pC waypoints)
        (extract_path_checkpoints pME pC waypoints).length).length =
        2 * ((extract_path_checkpoints pME pC waypoints).length) :=
      mergeLoop_length _ _ _
    by_cases hi : i < 2 * ((extract_path_checkpoints pME pC waypoints).length)
    · have hr' : (mergeLoop waypoints
          (extract_path_checkpoints pME pC waypoints)
          (extract_path_checkpoints pME pC waypoints).length)[i]? = some r := by
        have := hr
        unfold merge_waypoints_and_checkpoints at this
        rw [List.getElem?_append_left (by rw [hloopLen]; exact hi)] at this
        exact this
      rw [mergeLoop_getElem? _ _ _ i hi] at hr'
      by_cases hpar : i % 2 = 0
      · rw [if_pos hpar] at hr'
        have hrw : r = waypoints.getD (i / 2) default :=
          (Option.some.inj hr').symm
        subst hrw
        rw [if_pos hpar]
        have hhalf : i / 2 < waypoints.length := by
          rw [hclen] at hi
          omega
        rw [List.getD_eq_getElem _ _ hhalf]
        exact hw _ (List.getElem_mem hhalf)
      · rw [if_neg hpar] at hr'
        have hrw : r = (extract_path_checkpoints pME pC waypoints).getD
            (i / 2) default := (Option.some.inj hr').symm
        subst hrw
        rw [if_neg hpar]
        have hhalf : i / 2 <
            (extract_path_checkpoints pME pC waypoints).length := by omega
        rw [List.getD_eq_getElem _ _ hhalf]
        exact extract_path_checkpoints_type pME pC waypoints _
          (List.getElem_mem hhalf)
    · have hieq : i = 2 * ((extract_path_checkpoints pME pC waypoints).length) := by
        rw [hclen] at hi ⊢
        omega
      have hr' : r = waypoints.getLastD default := by
        have := hr
        unfold merge_waypoints_and_checkpoints at this
        rw [List.getElem?_append_right (by rw [hloopLen]; omega)] at this
        rw [hloopLen, hieq] at this
        simp at this
        rw [List.getLastD_eq_getLast?]
        exact this.symm
      subst hr'
      have hpar : i % 2 = 0 := by omega
      rw [if_pos hpar]
      exact hw _ (getLastD_mem waypoints hwne)
  refine ⟨hclen, hmlen, halt, ?_, ?_⟩
  · rw [List.head?_eq_getElem?]
    have h0 : (0 : Nat) < 2 * waypoints.length - 1 := by omega
    obtain ⟨r, hr⟩ : ∃ r, (merge_waypoints_and_checkpoints waypoints
        (extract_path_checkpoints pME pC waypoints))[0]? = some r := by
      have h0' : (0 : Nat) < (merge_waypoints_and_checkpoints waypoints
          (extract_path_checkpoints pME pC waypoints)).length := by
        rw [hmlen]; exact h0
      exact ⟨_, List.getElem?_eq_some_iff.mpr ⟨h0', rfl⟩⟩
    rw [hr]
    have ht := halt 0 r hr
    simp at ht
    simp [ht]
  · rw [hlast]
    have ht : (waypoints.getLastD default).type = RecType.wpt :=
      hw _ (getLastD_mem waypoints hwne)
    rw [List.getLastD_eq_getLast?] at ht
    simp [ht]

/-- C3 (evidence against the claim): when the zonal maximum is the missing
value (`zonal_stats` returns `None` for a buffer entirely outside the
raster), the callers do not raise any error: `extract_features_elevations`
stores the missing value in the `elev` column and returns normally, and
`extract_path_checkpoints` emits a checkpoint row whose `elev` is the
missing value. No `SamplingError` raise site exists in the code. -/
theorem missing_zonal_max_stored_not_fatal :
    extract_features_elevations (fun _ => none)
        [⟨1, GeomType.point, (0, 0)⟩] =
      [(⟨1, GeomType.point, (0, 0)⟩, none)] ∧
    (extract_path_checkpoints (fun _ _ => none) (fun p _ => p)
        [⟨10, RecType.wpt, (0, 0), some 5, 1⟩,
         ⟨11, RecType.wpt, (1, 0), some 5, 2⟩]).map (fun r => r.elev) =
      [none] :=
  ⟨rfl, rfl⟩

/-- C8: after optional AOI filtering, `read_features` raises the
no-features error when zero features survive, the distinct
insufficient-features error carrying the surviving feature's `point_id`
when exactly one survives, and returns the surviving features unchanged
when two or more survive. -/
theorem read_features_count_validation
    (aoiPred : Option ((ℚ × ℚ) → Bool)) (features : List Feature)
    (hgeom : allAreal features = true ∨ allPoint features = true) :
    ((filterAOI aoiPred features).length = 0 →
      read_features aoiPred features =
        Except.error BuildError.noFeaturesFound) ∧
    (∀ f : Feature, filterAOI aoiPred features = [f] →
      read_features aoiPred features =
        Except.error (BuildError.insufficientFeatures f.point_id)) ∧
    (2 ≤ (filterAOI aoiPred features).length →
      read_features aoiPred features =
        Except.ok (filterAOI aoiPred features)) := by
  have hred : read_features aoiPred features =
      validateCount (filterAOI aoiPred features) := by
    unfold read_features
    rcases hgeom with h | h
    · rw [if_pos h]
    · by_cases h2 : allAreal features = true
      · rw [if_pos h2]
      · rw [if_neg h2, if_pos h]
  refine ⟨?_, ?_, ?_⟩
  · intro h0
    rw [hred, List.length_eq_zero.mp h0]
    rfl
  · intro f hf
    rw [hred, hf]
    rfl
  · intro h2
    rcases hl : filterAOI aoiPred features with _ | ⟨a, t⟩
    · rw [hl] at h2
      simp at h2
    · rcases t with _ | ⟨c, t'⟩
      · rw [hl] at h2
        simp at h2
      · rw [hred, hl]
        rfl

/-- Witness for C8 at a concrete input: a single surviving point feature
with `point_id = 7` makes `read_features` fail with the
insufficient-features error mentioning identifier 7. -/
theorem read_features_count_validation_witness :
    read_features none [⟨7, GeomType.point, (0, 0)⟩] =
      Except.error (BuildError.insufficientFeatures 7) :=
  (read_features_count_validation none [⟨7, GeomType.point, (0, 0)⟩]
    (Or.inr rfl)).2.1 ⟨7, GeomType.point, (0, 0)⟩ rfl

/-- C9: the coverage check succeeds exactly when every feature lies
strictly inside the raster's bounding rectangle, and a point lying exactly
on the rectangle's boundary is counted as outside. -/
theorem coverage_check_strict_within (features : List Feature)
    (b : RasterBounds) :
    (check_features_overlap_dsm features b = Except.ok () ↔
      ∀ f ∈ features, pointWithinBox f.geometry b = true) ∧
    (∀ p : ℚ × ℚ,
      p.1 = b.left ∨ p.1 = b.right ∨ p.2 = b.bottom ∨ p.2 = b.top →
      pointWithinBox p b = false) := by
  constructor
  · constructor
    · intro hok f hf
      by_contra hfw
      have hfw' : pointWithinBox f.geometry b = false :=
        Bool.eq_false_iff.mpr hfw
      have hmem : f ∈ nonOverlappingFeatures features b := by
        unfold nonOverlappingFeatures
        rw [List.mem_filter]
        refine ⟨hf, ?_⟩
        rw [hfw']
        rfl
      have hne : nonOverlappingFeatures features b ≠ [] :=
        List.ne_nil_of_mem hmem
      have hemp : (nonOverlappingFeatures features b).isEmpty = false := by
        simp [List.isEmpty_iff, hne]
      unfold check_features_overlap_dsm at hok
      rw [hemp] at hok
      simp at hok
    · intro hall
      have hnil : nonOverlappingFeatures features b = [] := by
        unfold nonOverlappingFeatures
        rw [List.filter_eq_nil_iff]
        intro f hf
        rw [hall f hf]
        simp
      unfold check_features_overlap_dsm
      rw [hnil]
      rfl
  · intro p hp
    unfold pointWithinBox
    rcases hp with h | h | h | h <;> simp [h]

/-- Witness for C9 at a concrete input: the point `(0, 1/2)` lying exactly
on the left edge of the box `[0,1] × [0,1]` is classified as outside. -/
theorem coverage_check_strict_within_witness :
    pointWithinBox ((0 : ℚ), (1 : ℚ) / 2) ⟨0, 0, 1, 1⟩ = false :=
  (coverage_check_strict_within [] ⟨0, 0, 1, 1⟩).2 (0, 1 / 2) (Or.inl rfl)

/-- Witness for C6 at a concrete input: two waypoints yield one checkpoint
and a merged frame of three rows starting and ending with a waypoint. -/
theorem extract_merge_interleave_witness :
    (extract_path_checkpoints (fun _ _ => some 5) (fun p _ => p)
        [⟨10, RecType.wpt, (0, 0), some 5, 1⟩,
         ⟨11, RecType.wpt, (1, 0), some 5, 2⟩]).length = 1 ∧
    (merge_waypoints_and_checkpoints
        [⟨10, RecType.wpt, (0, 0), some 5, 1⟩,
         ⟨11, RecType.wpt, (1, 0), some 5, 2⟩]
        (extract_path_checkpoints (fun _ _ => some 5) (fun p _ => p)
          [⟨10, RecType.wpt, (0, 0), some 5, 1⟩,
           ⟨11, RecType.wpt, (1, 0), some 5, 2⟩])).length = 3 ∧
    (merge_waypoints_and_checkpoints
        [⟨10, RecType.wpt, (0, 0), some 5, 1⟩,
         ⟨11, RecType.wpt, (1, 0), some 5, 2⟩]
        (extract_path_checkpoints (fun _ _ => some 5) (fun p _ => p)
          [⟨10, RecType.wpt, (0, 0), some 5, 1⟩,
           ⟨11, RecType.wpt, (1, 0), some 5, 2⟩])).head?.map
      (fun r => r.type) = some RecType.wpt ∧
    (merge_waypoints_and_checkpoints
        [⟨10, RecType.wpt, (0, 0), some 5, 1⟩,
         ⟨11, RecType.wpt, (1, 0), some 5, 2⟩]
        (extract_path_checkpoints (fun _ _ => some 5) (fun p _ => p)
          [⟨10, RecType.wpt, (0, 0), some 5, 1⟩,
           ⟨11, RecType.wpt, (1, 0), some 5, 2⟩])).getLast?.map
      (fun r => r.type) = some RecType.wpt :=
  ⟨(extract_merge_interleave (fun _ _ => some 5) (fun p _ => p)
      [⟨10, RecType.wpt, (0, 0), some 5, 1⟩,
       ⟨11, RecType.wpt, (1, 0), some 5, 2⟩]
      (by simp) (by simp)).1,
   (extract_merge_interleave (fun _ _ => some 5) (fun p _ => p)
      [⟨10, RecType.wpt, (0, 0), some 5, 1⟩,
       ⟨11, RecType.wpt, (1, 0), some 5, 2⟩]
      (by simp) (by simp)).2.1,
   (extract_merge_interleave (fun _ _ => some 5) (fun p _ => p)
      [⟨10, RecType.wpt, (0, 0), some 5, 1⟩,
       ⟨11, RecType.wpt, (1, 0), some 5, 2⟩]
      (by simp) (by simp)).2.2.2.1,
   (extract_merge_interleave (fun _ _ => some 5) (fun p _ => p)
      [⟨10, RecType.wpt, (0, 0), some 5, 1⟩,
       ⟨11, RecType.wpt, (1, 0), some 5, 2⟩]
      (by simp) (by simp)).2.2.2.2⟩

/-- C7: when some feature lies outside the DSM bounding rectangle, the
pipeline prefix fails with the coverage error — whose message lists at
most 10 offending identifiers (the first 10 of the offending sub-frame)
and carries the truncation notice exactly when more than 10 features are
outside — for every elevation sampler, i.e. before any elevation sampling
can influence the run. -/
theorem coverage_error_blocks_sampling
    (aoiPred : Option ((ℚ × ℚ) → Bool)) (features feats : List Feature)
    (b : RasterBounds)
    (hread : read_features aoiPred features = Except.ok feats)
    (houtside : ∃ f ∈ feats, pointWithinBox f.geometry b = false) :
    (∀ featureMaxElev : (ℚ × ℚ) → Option ℚ,
      runThroughElevations featureMaxElev aoiPred features b =
        Except.error (BuildError.coverage
          (((nonOverlappingFeatures feats b).map Feature.point_id).take 10)
          (nonOverlappingFeatures feats b).length feats.length
          (decide (10 < (nonOverlappingFeatures feats b).length)))) ∧
    (((nonOverlappingFeatures feats b).map Feature.point_id).take 10).length
      ≤ 10 ∧
    ((decide (10 < (nonOverlappingFeatures feats b).length) = true) ↔
      10 < (nonOverlappingFeatures feats b).length) := by
  obtain ⟨f, hf, hfw⟩ := houtside
  have hmem : f ∈ nonOverlappingFeatures feats b := by
    unfold nonOverlappingFeatures
    rw [List.mem_filter]
    refine ⟨hf, ?_⟩
    rw [hfw]
    rfl
  have hne : nonOverlappingFeatures feats b ≠ [] := List.ne_nil_of_mem hmem
  have hemp : (nonOverlappingFeatures feats b).isEmpty = false := by
    simp [List.isEmpty_iff, hne]
  have hcheck : check_features_overlap_dsm feats b = Except.error
      (BuildError.coverage
        (((nonOverlappingFeatures feats b).map Feature.point_id).take 10)
        (nonOverlappingFeatures feats b).length feats.length
        (decide (10 < (nonOverlappingFeatures feats b).length))) := by
    unfold check_features_overlap_dsm
    rw [hemp]
    rfl
  refine ⟨?_, ?_, ⟨of_decide_eq_true, decide_eq_true⟩⟩
  · intro featureMaxElev
    unfold runThroughElevations
    rw [hread]
    dsimp only
    rw [hcheck]
  · rw [List.length_take]
    exact min_le_left _ _

lemma q_two_not_lt_one : ¬ ((2 : ℚ) < 1) := by norm_num

/-- Witness for C7 at a concrete input: two point features at `(2, 2)`,
outside the box `[0,1] × [0,1]`, make the pipeline prefix fail with the
coverage error regardless of the sampler. -/
theorem coverage_error_blocks_sampling_witness :
    runThroughElevations (fun _ => some 0) none
        [⟨1, GeomType.point, (2, 2)⟩, ⟨2, GeomType.point, (2, 2)⟩]
        ⟨0, 0, 1, 1⟩ =
      Except.error (BuildError.coverage
        (((nonOverlappingFeatures
            [⟨1, GeomType.point, (2, 2)⟩, ⟨2, GeomType.point, (2, 2)⟩]
            ⟨0, 0, 1, 1⟩).map Feature.point_id).take 10)
        (nonOverlappingFeatures
          [⟨1, GeomType.point, (2, 2)⟩, ⟨2, GeomType.point, (2, 2)⟩]
          ⟨0, 0, 1, 1⟩).length 2
        (decide (10 < (nonOverlappingFeatures
          [⟨1, GeomType.point, (2, 2)⟩, ⟨2, GeomType.point, (2, 2)⟩]
          ⟨0, 0, 1, 1⟩).length))) :=
  (coverage_error_blocks_sampling none
    [⟨1, GeomType.point, (2, 2)⟩, ⟨2, GeomType.point, (2, 2)⟩]
    [⟨1, GeomType.point, (2, 2)⟩, ⟨2, GeomType.point, (2, 2)⟩]
    ⟨0, 0, 1, 1⟩ rfl
    ⟨⟨1, GeomType.point, (2, 2)⟩, by simp,
      by simp [pointWithinBox, q_two_not_lt_one]⟩).1 (fun _ => some 0)

/-- Euclidean distance between two points, as computed by shapely's
`Point.distance` and numpy's `np.linalg.norm` on the coordinate
difference. -/
noncomputable def euclidDist (p q : ℚ × ℚ) : ℝ :=
  Real.sqrt ((((p.1 : ℝ)) - ((q.1 : ℝ))) ^ 2 +
    (((p.2 : ℝ)) - ((q.2 : ℝ))) ^ 2)

/-- Embedding of `BuildCSV.build_distance_matrix` (build_csv.py lines
185-197): a square array initialised to zeros whose off-diagonal entry
`(i, j)` is set to `features[i].distance(features[j])`; the diagonal is
never written and stays 0. Entries are read as a function of the two
indices. -/
noncomputable def build_distance_matrix (features : List (ℚ × ℚ)) :
    Nat → Nat → ℝ :=
  fun i j =>
    if i = j then 0
    else euclidDist (features.getD i (0, 0)) (features.getD j (0, 0))

lemma euclidDist_symm (p q : ℚ × ℚ) : euclidDist p q = euclidDist q p := by
  unfold euclidDist
  ring_nf

lemma euclidDist_nonneg (p q : ℚ × ℚ) : 0 ≤ euclidDist p q :=
  Real.sqrt_nonneg _

/-- C5: the distance matrix is symmetric, has a zero diagonal, and each
entry is the non-negative Euclidean distance between the corresponding
feature points. -/
theorem build_distance_matrix_props (features : List (ℚ × ℚ)) (i j : Nat)
    (hi : i < features.length) (hj : j < features.length) :
    build_distance_matrix features i j = build_distance_matrix features j i ∧
    build_distance_matrix features i i = 0 ∧
    0 ≤ build_distance_matrix features i j ∧
    (i ≠ j → build_distance_matrix features i j =
      euclidDist (features.getD i (0, 0)) (features.getD j (0, 0))) := by
  refine ⟨?_, ?_, ?_, ?_⟩
  · unfold build_distance_matrix
    by_cases hij : i = j
    · rw [if_pos hij, if_pos hij.symm]
    · rw [if_neg hij, if_neg (fun h => hij h.symm)]
      exact euclidDist_symm _ _
  · unfold build_distance_matrix
    rw [if_pos rfl]
  · unfold build_distance_matrix
    by_cases hij : i = j
    · rw [if_pos hij]
    · rw [if_neg hij]
      exact euclidDist_nonneg _ _
  · intro hij
    unfold build_distance_matrix
    rw [if_neg hij]

/-- Witness for C5 at a concrete input: the two-point feature list
`[(0,0), (3,4)]` at indices 0 and 1. -/
theorem build_distance_matrix_props_witness :
    build_distance_matrix [(0, 0), (3, 4)] 0 1 =
      build_distance_matrix [(0, 0), (3, 4)] 1 0 ∧
    build_distance_matrix [(0, 0), (3, 4)] 0 0 = 0 ∧
    0 ≤ build_distance_matrix [(0, 0), (3, 4)] 0 1 ∧
    ((0 : Nat) ≠ 1 → build_distance_matrix [(0, 0), (3, 4)] 0 1 =
      euclidDist (([(0, 0), (3, 4)] : List (ℚ × ℚ)).getD 0 (0, 0))
        (([(0, 0), (3, 4)] : List (ℚ × ℚ)).getD 1 (0, 0))) :=
  build_distance_matrix_props [(0, 0), (3, 4)] 0 1 (by decide) (by decide)

/-- Squared Euclidean distance in ℚ. Comparing squared distances is
equivalent to comparing the Euclidean norms computed by
`np.linalg.norm` (square root is strictly monotone on non-negative
numbers), so `argminFirst` over these values picks the same index as
`np.argmin` over the norms. -/
def sqDist (p q : ℚ × ℚ) : ℚ :=
  (p.1 - q.1) ^ 2 + (p.2 - q.2) ^ 2

/-- Index of the first minimum of a list, the semantics of `np.argmin`
(ties broken by the lowest index); 0 on the empty list. -/
def argminFirst : List ℚ → Nat
  | [] => 0
  | [_] => 0
  | x :: y :: t =>
    if x ≤ (y :: t).getD (argminFirst (y :: t)) 0 then 0
    else argminFirst (y :: t) + 1

/-- Start-index selection of `solve_tsp_ortools` (build_csv.py lines
232-237): index 0 by default; when takeoff coordinates are given (the
waypoint coordinates always are, step 6 of `run`), the index of the
waypoint nearest the takeoff point, `int(np.argmin(dists))`. -/
def chooseStartIndex (takeoff_coords : Option (ℚ × ℚ))
    (waypoints_coords : List (ℚ × ℚ)) : Nat :=
  match takeoff_coords with
  | none => 0
  | some t => argminFirst (waypoints_coords.map fun c => sqDist t c)

/-- Scaling of one distance entry: `(distance_matrix * 1000).astype(int)`
(build_csv.py line 230). `astype(int)` truncates toward zero, which equals
the floor on the non-negative distances involved. -/
def scaleDistance (q : ℚ) : Int := ⌊q * 1000⌋

/-- The pieces of an OR-Tools feasible assignment that the route
extraction loop (build_csv.py lines 262-268) reads: `routing.Start(0)`,
`solution.Value(routing.NextVar(i))`, `routing.IsEnd(i)` and
`manager.IndexToNode(i)`. Internal routing indices are opaque naturals. -/
structure TspAssignment where
  start : Nat
  next : Nat → Nat
  isEnd : Nat → Bool
  toNode : Nat → Nat

/-- The while loop of the route extraction (build_csv.py lines 264-267),
with explicit fuel: starting from `idx`, append `IndexToNode(idx)` and
follow `NextVar` until `IsEnd`. Fuel `n + 1` suffices for any feasible
single-vehicle assignment over `n` nodes. -/
def extractRouteLoop (sol : TspAssignment) : Nat → Nat → List Nat
  | 0, _ => []
  | fuel + 1, idx =>
    if sol.isEnd idx then []
    else sol.toNode idx :: extractRouteLoop sol fuel (sol.next idx)

/-- Embedding of `BuildCSV.solve_tsp_ortools` (build_csv.py lines
223-269): scale the distance matrix to integers, choose the start index,
hand both to the opaque OR-Tools solver (the parameter `solver`, modelling
`RoutingIndexManager` + `RoutingModel` + `SolveWithParameters` applied to
the scaled costs, the node count and the chosen start), and if a solution
comes back extract the visit order; otherwise return `None`. The function
returns; it raises nothing on infeasibility. -/
def solve_tsp_ortools
    (solver : (Nat → Nat → Int) → Nat → Nat → Option TspAssignment)
    (distance_matrix : Nat → Nat → ℚ) (n : Nat)
    (takeoff_coords : Option (ℚ × ℚ))
    (waypoints_coords : List (ℚ × ℚ)) :
    Except BuildError (Option (List Nat)) :=
  let scaled_matrix : Nat → Nat → Int :=
    fun i j => scaleDistance (distance_matrix i j)
  let start_index := chooseStartIndex takeoff_coords waypoints_coords
  match solver scaled_matrix n start_index with
  | some sol => Except.ok (some (extractRouteLoop sol (n + 1) sol.start))
  | none => Except.ok none

/-- First `k` routing indices visited from `x` by following `next`. -/
def orbitList (next : Nat → Nat) (x : Nat) : Nat → List Nat
  | 0 => []
  | k + 1 => x :: orbitList next (next x) k

/-- The guarantees OR-Tools gives for a feasible solution of the routing
model built in `solve_tsp_ortools` (n nodes, one vehicle, depot
`start_index`, all nodes mandatory): following `NextVar` from `Start(0)`
visits `n` non-end routing indices and then reaches the end index; the
visited indices map through `IndexToNode` to `n` distinct node indices
below `n`; and `IndexToNode(Start(0))` is the chosen depot. -/
def ValidAssignment (n s : Nat) (sol : TspAssignment) : Prop :=
  (∀ i ∈ orbitList sol.next sol.start n, sol.isEnd i = false) ∧
  sol.isEnd (sol.next^[n] sol.start) = true ∧
  ((orbitList sol.next sol.start n).map sol.toNode).Nodup ∧
  (∀ x ∈ (orbitList sol.next sol.start n).map sol.toNode, x < n) ∧
  sol.toNode sol.start = s

lemma orbitList_length (next : Nat → Nat) :
    ∀ (k x : Nat), (orbitList next x k).length = k := by
  intro k
  induction k with
  | zero => intro x; rfl
  | succ k ih =>
    intro x
    show (x :: orbitList next (next x) k).length = k + 1
    rw [List.length_cons, ih]

lemma extractRouteLoop_eq_orbit (sol : TspAssignment) :
    ∀ (k x : Nat),
      (∀ i ∈ orbitList sol.next x k, sol.isEnd i = false) →
      sol.isEnd (sol.next^[k] x) = true →
      extractRouteLoop sol (k + 1) x =
        (orbitList sol.next x k).map sol.toNode := by
  intro k
  induction k with
  | zero =>
    intro x _ hend
    show (if sol.isEnd x then [] else _) = []
    rw [Function.iterate_zero_apply] at hend
    rw [hend]
    simp
  | succ k ih =>
    intro x horbit hend
    have hx : sol.isEnd x = false :=
      horbit x (by show x ∈ x :: _; simp)
    show (if sol.isEnd x then [] else
        sol.toNode x :: extractRouteLoop sol (k + 1) (sol.next x)) = _
    rw [hx]
    simp only [Bool.false_eq_true, if_false]
    have horbit' : ∀ i ∈ orbitList sol.next (sol.next x) k,
        sol.isEnd i = false := by
      intro i hi
      exact horbit i (by show i ∈ x :: _; simp [hi])
    have hend' : sol.isEnd (sol.next^[k] (sol.next x)) = true := by
      rw [← Function.iterate_succ_apply]
      exact hend
    rw [ih (sol.next x) horbit' hend']
    rfl

lemma argminFirst_lt_length : ∀ (l : List ℚ), l ≠ [] →
    argminFirst l < l.length := by
  intro l
  induction l with
  | nil => intro h; exact absurd rfl h
  | cons x t ih =>
    intro _
    cases t with
    | nil => show 0 < 1; omega
    | cons y t' =>
      unfold argminFirst
      split
      · simp
      · have hih := ih (by simp)
        simp only [List.length_cons] at hih ⊢
        omega

lemma argminFirst_min : ∀ (l : List ℚ) (i : Nat), i < l.length →
    l.getD (argminFirst l) 0 ≤ l.getD i 0 := by
  intro l
  induction l with
  | nil => intro i hi; simp at hi
  | cons x t ih =>
    intro i hi
    cases t with
    | nil =>
      have hi0 : i = 0 := by
        simp only [List.length_cons, List.length_nil] at hi
        omega
      subst hi0
      exact le_refl _
    | cons y t' =>
      unfold argminFirst
      split
      next hle =>
        rw [List.getD_cons_zero]
        cases i with
        | zero => rw [List.getD_cons_zero]
        | succ j =>
          rw [List.getD_cons_succ]
          refine le_trans hle (ih j ?_)
          simp only [List.length_cons] at hi ⊢
          omega
      next hgt =>
        rw [List.getD_cons_succ]
        cases i with
        | zero =>
          rw [List.getD_cons_zero]
          exact le_of_lt (not_le.mp hgt)
        | succ j =>
          rw [List.getD_cons_succ]
          refine ih j ?_
          simp only [List.length_cons] at hi ⊢
          omega

lemma argminFirst_first : ∀ (l : List ℚ) (i : Nat), i < argminFirst l →
    l.getD (argminFirst l) 0 < l.getD i 0 := by
  intro l
  induction l with
  | nil => intro i hi; simp [argminFirst] at hi
  | cons x t ih =>
    intro i hi
    cases t with
    | nil => simp [argminFirst] at hi
    | cons y t' =>
      unfold argminFirst at hi ⊢
      split at hi
      next hle => omega
      next hgt =>
        rw [if_neg hgt, List.getD_cons_succ]
        cases i with
        | zero =>
          rw [List.getD_cons_zero]
          exact not_le.mp hgt
        | succ j =>
          rw [List.getD_cons_succ]
          exact ih j (by omega)

lemma mem_of_nodup_bound_length {l : List Nat} {n : Nat}
    (hnd : l.Nodup) (hb : ∀ x ∈ l, x < n) (hlen : l.length = n) :
    ∀ k, k < n → k ∈ l := by
  intro k hk
  have hsub : l.toFinset ⊆ Finset.range n := by
    intro x hx
    rw [List.mem_toFinset] at hx
    exact Finset.mem_range.mpr (hb x hx)
  have hcard : l.toFinset.card = n := by
    rw [List.toFinset_card_of_nodup hnd, hlen]
  have heq : l.toFinset = Finset.range n :=
    Finset.eq_of_subset_of_card_le hsub (by rw [Finset.card_range, hcard])
  have hmem : k ∈ l.toFinset := by
    rw [heq]
    exact Finset.mem_range.mpr hk
  exact List.mem_toFinset.mp hmem

lemma getD_map_sqDist (t : ℚ × ℚ) (coords : List (ℚ × ℚ)) (j : Nat)
    (hj : j < coords.length) :
    (coords.map fun c => sqDist t c).getD j 0 =
      sqDist t (coords.getD j (0, 0)) := by
  rw [List.getD_eq_getElem _ _ (by simpa using hj), List.getElem_map,
    List.getD_eq_getElem _ _ hj]

lemma sqDist_nonneg (t p : ℚ × ℚ) : 0 ≤ sqDist t p := by
  unfold sqDist
  positivity

lemma euclidDist_eq_sqrt_sqDist (t p : ℚ × ℚ) :
    euclidDist t p = Real.sqrt ((sqDist t p : ℚ)) := by
  unfold euclidDist sqDist
  push_cast
  ring_nf

/-- C4: whenever `solve_tsp_ortools` returns a route — for `n ≥ 2` feature
coordinates and any feasible assignment returned by the opaque OR-Tools
solver, subject to the library's guarantees (`ValidAssignment`) — the
route is a permutation of `0..n-1`: it has length `n`, repeats no index
and omits none; and its first element is the chosen start index — 0
without a takeoff, and with a takeoff the feature index minimising the
Euclidean distance to the takeoff point, ties broken by the lowest
index. -/
theorem solve_tsp_route_permutation
    (solver : (Nat → Nat → Int) → Nat → Nat → Option TspAssignment)
    (distance_matrix : Nat → Nat → ℚ) (n : Nat)
    (takeoff : Option (ℚ × ℚ)) (coords : List (ℚ × ℚ))
    (sol : TspAssignment) (route : List Nat)
    (hn : 2 ≤ n) (hlen : coords.length = n)
    (hvalid : ValidAssignment n (chooseStartIndex takeoff coords) sol)
    (hroute : solve_tsp_ortools solver distance_matrix n takeoff coords =
      Except.ok (some route))
    (hsolver : solver (fun i j => scaleDistance (distance_matrix i j)) n
      (chooseStartIndex takeoff coords) = some sol) :
    route.length = n ∧ route.Nodup ∧ (∀ k, k ∈ route ↔ k < n) ∧
    route.head? = some (chooseStartIndex takeoff coords) ∧
    (takeoff = none → chooseStartIndex takeoff coords = 0) ∧
    (∀ t, takeoff = some t →
      chooseStartIndex takeoff coords < n ∧
      (∀ j, j < n →
        euclidDist t (coords.getD (chooseStartIndex takeoff coords) (0, 0)) ≤
          euclidDist t (coords.getD j (0, 0))) ∧
      (∀ j, j < chooseStartIndex takeoff coords →
        euclidDist t (coords.getD (chooseStartIndex takeoff coords) (0, 0)) <
          euclidDist t (coords.getD j (0, 0)))) := by
  obtain ⟨horbit, hend, hnd, hbound, hstart⟩ := hvalid
  have hextract : route =
      (orbitList sol.next sol.start n).map sol.toNode := by
    unfold solve_tsp_ortools at hroute
    dsimp only at hroute
    rw [hsolver] at hroute
    have := Option.some.inj (Except.ok.inj hroute)
    rw [← this]
    exact extractRouteLoop_eq_orbit sol n sol.start horbit hend
  have hrlen : route.length = n := by
    rw [hextract, List.length_map, orbitList_length]
  refine ⟨hrlen, ?_, ?_, ?_, ?_, ?_⟩
  · rw [hextract]
    exact hnd
  · intro k
    constructor
    · intro hk
      rw [hextract] at hk
      exact hbound k hk
    · intro hk
      rw [hextract]
      refine mem_of_nodup_bound_length hnd hbound ?_ k hk
      rw [List.length_map, orbitList_length]
  · obtain ⟨m, rfl⟩ : ∃ m, n = m + 1 := ⟨n - 1, by omega⟩
    rw [hextract]
    show ((sol.start :: orbitList sol.next (sol.next sol.start) m).map
      sol.toNode).head? = _
    rw [List.map_cons, List.head?_cons, hstart]
  · intro hnone
    subst hnone
    rfl
  · intro t ht
    subst ht
    have hs : chooseStartIndex (some t) coords =
        argminFirst (coords.map fun c => sqDist t c) := rfl
    have hdlen : (coords.map fun c => sqDist t c).length = n := by
      rw [List.length_map, hlen]
    have hdne : (coords.map fun c => sqDist t c) ≠ [] := by
      intro hnil
      rw [hnil] at hdlen
      simp at hdlen
      omega
    have hsn : chooseStartIndex (some t) coords < n := by
      rw [hs, ← hdlen]
      exact argminFirst_lt_length _ hdne
    refine ⟨hsn, ?_, ?_⟩
    · intro j hj
      have hmin := argminFirst_min (coords.map fun c => sqDist t c) j
        (by rw [hdlen]; exact hj)
      rw [getD_map_sqDist t coords _ (by rw [hlen]; exact hsn),
        getD_map_sqDist t coords j (by rw [hlen]; exact hj), ← hs] at hmin
      rw [euclidDist_eq_sqrt_sqDist, euclidDist_eq_sqrt_sqDist]
      exact Real.sqrt_le_sqrt (by exact_mod_cast hmin)
    · intro j hj
      have hjn : j < n := lt_trans hj hsn
      have hlt := argminFirst_first (coords.map fun c => sqDist t c) j
        (by rw [← hs]; exact hj)
      rw [getD_map_sqDist t coords _ (by rw [hlen]; exact hsn),
        getD_map_sqDist t coords j (by rw [hlen]; exact hjn), ← hs] at hlt
      rw [euclidDist_eq_sqrt_sqDist, euclidDist_eq_sqrt_sqDist]
      refine Real.sqrt_lt_sqrt ?_ (by exact_mod_cast hlt)
      exact_mod_cast sqDist_nonneg t _

/-- Witness for C4 at a concrete input: two coordinates, no takeoff, a
solver returning the assignment that visits routing indices 5 then 6
(nodes 0 then 1) and ends at 7; the extracted route `[0, 1]` has length 2
and starts at the chosen start index 0. -/
theorem solve_tsp_route_permutation_witness :
    ([0, 1] : List Nat).length = 2 ∧
    ([0, 1] : List Nat).head? = some 0 :=
  ⟨(solve_tsp_route_permutation
      (fun _ _ _ => some ⟨5, fun i => if i = 5 then 6 else 7,
        fun i => i == 7, fun i => if i = 5 then 0 else 1⟩)
      (fun _ _ => 0) 2 none [(0, 0), (1, 0)]
      ⟨5, fun i => if i = 5 then 6 else 7, fun i => i == 7,
        fun i => if i = 5 then 0 else 1⟩
      [0, 1] (by omega) rfl
      ⟨by decide, by decide, by decide, by decide, rfl⟩ rfl rfl).1,
   (solve_tsp_route_permutation
      (fun _ _ _ => some ⟨5, fun i => if i = 5 then 6 else 7,
        fun i => i == 7, fun i => if i = 5 then 0 else 1⟩)
      (fun _ _ => 0) 2 none [(0, 0), (1, 0)]
      ⟨5, fun i => if i = 5 then 6 else 7, fun i => i == 7,
        fun i => if i = 5 then 0 else 1⟩
      [0, 1] (by omega) rfl
      ⟨by decide, by decide, by decide, by decide, rfl⟩ rfl rfl).2.2.2.1⟩

/-- C2 (evidence against the claim): at a concrete input on which the
solver reports infeasibility (returns no assignment), the route-solving
step returns the non-error value `None` (`Except.ok none`); in particular
it does not fail with a raised `NoRouteFoundError` — no raise site for it
exists in the code. -/
theorem solver_infeasible_returns_ok_none :
    solve_tsp_ortools (fun _ _ _ => none) (fun _ _ => 0) 2 none
        [(0, 0), (1, 0)] = Except.ok none ∧
    solve_tsp_ortools (fun _ _ _ => none) (fun _ _ => 0) 2 none
        [(0, 0), (1, 0)] ≠ Except.error BuildError.noRouteFound :=
  ⟨rfl, fun h => nomatch h⟩

/-- C2 amended: for every input on which the combinatorial solver reports
infeasibility, `solve_tsp_ortools` returns `None` — a normal, non-error
return value — rather than raising any error. -/
theorem solve_tsp_infeasible_returns_none
    (solver : (Nat → Nat → Int) → Nat → Nat → Option TspAssignment)
    (distance_matrix : Nat → Nat → ℚ) (n : Nat)
    (takeoff : Option (ℚ × ℚ)) (coords : List (ℚ × ℚ))
    (hinfeasible : solver (fun i j => scaleDistance (distance_matrix i j)) n
      (chooseStartIndex takeoff coords) = none) :
    solve_tsp_ortools solver distance_matrix n takeoff coords =
      Except.ok none := by
  unfold solve_tsp_ortools
  dsimp only
  rw [hinfeasible]

/-- Witness for the amended C2 at a concrete input: the constantly
infeasible solver makes `solve_tsp_ortools` return `Except.ok none`. -/
theorem solve_tsp_infeasible_returns_none_witness :
    solve_tsp_ortools (fun _ _ _ => none) (fun _ _ => 1) 3 none
        [(0, 0), (1, 0), (2, 0)] = Except.ok none :=
  solve_tsp_infeasible_returns_none (fun _ _ _ => none) (fun _ _ => 1) 3
    none [(0, 0), (1, 0), (2, 0)] rfl
